import Mathlib

/-!
Verification of the private state resolution layer of the xdchain node:
the Default and Multiple private state manager strategies
(core/default_psm.go and core/multiple_psm.go), the privacy group
metadata registry, and the Istanbul proposer policy TOML round trip
(consensus/istanbul/config.go).

Go maps are embedded as association lists (with List.lookup for map
indexing); the ambient request context is embedded as an optional PSI
parameter, following the design note of the spec that context-based
resolution should be modeled as explicit parameter passing.  Block and
root hashes are embedded as natural numbers.  Fallible Go functions
returning (T, error) are embedded as Except.
-/

/-- Block hashes and state trie root hashes (common.Hash). -/
abbrev Hash := Nat

/-- types.PrivateStateIdentifier is a named string type. -/
abbrev PrivateStateIdentifier := String

/-- Modelled from the spec: the reserved default identifier
(types.DefaultPrivateStateIdentifier), used when no partition is
explicitly specified; the package defining it is not in the excerpt. -/
def DefaultPrivateStateIdentifier : PrivateStateIdentifier := "private"

/-- Modelled from the spec: the group kinds Resident and Participant of
the data model (mps.Resident is referenced by the excerpted sources). -/
inductive PrivateStateType where
  | Resident
  | Participant
deriving DecidableEq, Repr

/-- Modelled from the spec: mps.PrivateStateMetadata describes one
privacy group as the record (id, kind, managedParties); the mps package
is not in the excerpt.  The Go field Type is a reserved word in Lean and
is embedded as the field typ. -/
structure PrivateStateMetadata where
  ID : PrivateStateIdentifier
  typ : PrivateStateType
  managedParties : List String
deriving DecidableEq, Repr

/-- Modelled from the spec: mps.DefaultPrivateStateMetadata, the single
synthetic metadata record of the Default strategy, carrying the
reserved default identifier and the Resident kind. -/
def DefaultPrivateStateMetadata : PrivateStateMetadata :=
  { ID := DefaultPrivateStateIdentifier
    typ := PrivateStateType.Resident
    managedParties := [] }

/-- Modelled from the spec: mps.PrivateStateMetadata.NotIncludeAny, the
membershipExcludes operation of the metadata registry: true iff none of
the supplied parties belong to the managedParties of the record. -/
def PrivateStateMetadata.NotIncludeAny (psm : PrivateStateMetadata)
    (managedParties : List String) : Bool :=
  managedParties.all fun p => !(psm.managedParties.contains p)

/-- Error kinds of the spec for the operations whose implementation is
not in the excerpt (repository constructors, trie opening, registry
construction).  Source functions present in the excerpt build their
errors with fmt.Errorf and are embedded with string errors instead. -/
inductive MPSError where
  | UnknownBlock
  | MissingState
  | InvalidRegistry
deriving DecidableEq, Repr

/-- The persistent node database (ethdb.Database) together with the
shared trie cache, as far as the resolution layer observes them:
the two block-anchored root indexes and the set of trie roots that the
state database can still open. -/
structure Database where
  privateStateRoot : List (Hash × Hash)
  privateStatesTrieRoot : List (Hash × Hash)
  availableRoots : List Hash
deriving DecidableEq, Repr

/-- Modelled from the spec: rawdb.GetPrivateStateRoot reads the
Default-strategy Block-Anchored Root Index; the zero hash stands for a
missing entry, as rawdb returns the empty hash when the key is absent.
The database is threaded through to make the read/write footprint of
callers explicit. -/
def rawdbGetPrivateStateRoot (db : Database) (blockHash : Hash) :
    Hash × Database :=
  ((db.privateStateRoot.lookup blockHash).getD 0, db)

/-- Modelled from the spec: rawdb.GetPrivateStatesTrieRoot reads the
Multiple-strategy Block-Anchored Root Index (blockHash to the root of
the trie of private state roots); the zero hash stands for a missing
entry. -/
def rawdbGetPrivateStatesTrieRoot (db : Database) (blockHash : Hash) :
    Hash × Database :=
  ((db.privateStatesTrieRoot.lookup blockHash).getD 0, db)

/-- Modelled from the spec: state.New / openTrie of the shared trie
cache opens a read view at a historical root and fails with
MissingState if the required nodes were pruned or never persisted.  It
mutates nothing, so the database is returned unchanged. -/
def stateNew (db : Database) (root : Hash) :
    Except MPSError Unit × Database :=
  (if root ∈ db.availableRoots then Except.ok () else
    Except.error MPSError.MissingState, db)

/-- Modelled from the spec: the repository handle of the Default
strategy, bound to the reserved default partition at one root. -/
structure PrivateStateRepository where
  psi : PrivateStateIdentifier
  root : Hash
deriving DecidableEq, Repr

/-- Modelled from the spec: the repository provider of the Multiple
strategy, bound to the root of the per-block PSI-to-root table. -/
structure MultiplePrivateStateRepository where
  trieRoot : Hash
deriving DecidableEq, Repr

/-- Modelled from the spec: mps.NewDefaultPrivateStateRepository looks
up the single root recorded for the block hash in the Block-Anchored
Root Index and fails with UnknownBlock if no entry exists. -/
def NewDefaultPrivateStateRepository (db : Database) (blockHash : Hash) :
    Except MPSError PrivateStateRepository :=
  match db.privateStateRoot.lookup blockHash with
  | none => Except.error MPSError.UnknownBlock
  | some r =>
      Except.ok { psi := DefaultPrivateStateIdentifier, root := r }

/-- Modelled from the spec: mps.NewMultiplePrivateStateRepository binds
a repository provider to the per-block table root and fails with
UnknownBlock when the Root Index had no entry for the block (the zero
hash handed over by rawdbGetPrivateStatesTrieRoot). -/
def NewMultiplePrivateStateRepository (_db : Database) (root : Hash) :
    Except MPSError MultiplePrivateStateRepository :=
  if root = 0 then Except.error MPSError.UnknownBlock
  else Except.ok { trieRoot := root }

/-- core/default_psm.go: the Default strategy manager.  The repoCache
field is the state database built over db and is folded into the
Database embedding. -/
structure DefaultPrivateStateManager where
  db : Database
deriving DecidableEq, Repr

/-- core/default_psm.go DefaultPrivateStateManager.StateRepository. -/
def DefaultPrivateStateManager.StateRepository
    (d : DefaultPrivateStateManager) (blockHash : Hash) :
    Except MPSError PrivateStateRepository :=
  NewDefaultPrivateStateRepository d.db blockHash

/-- core/default_psm.go DefaultPrivateStateManager.ResolveForManagedParty:
ignores the key and returns the default metadata record. -/
def DefaultPrivateStateManager.ResolveForManagedParty
    (_d : DefaultPrivateStateManager) (_managedParty : String) :
    Except String PrivateStateMetadata :=
  Except.ok DefaultPrivateStateMetadata

/-- core/default_psm.go DefaultPrivateStateManager.ResolveForUserContext:
takes the PSI from the context when present (else the reserved default)
and returns a fresh Resident metadata record carrying that PSI. -/
def DefaultPrivateStateManager.ResolveForUserContext
    (_d : DefaultPrivateStateManager)
    (ctx : Option PrivateStateIdentifier) :
    Except String PrivateStateMetadata :=
  let psi := match ctx with
    | some psi => psi
    | none => DefaultPrivateStateIdentifier
  Except.ok { ID := psi, typ := PrivateStateType.Resident, managedParties := [] }

/-- core/default_psm.go DefaultPrivateStateManager.PSIs. -/
def DefaultPrivateStateManager.PSIs (_d : DefaultPrivateStateManager) :
    List PrivateStateIdentifier :=
  [DefaultPrivateStateIdentifier]

/-- core/default_psm.go DefaultPrivateStateManager.NotIncludeAny:
always false, as all managed parties are members of the psm. -/
def DefaultPrivateStateManager.NotIncludeAny
    (_d : DefaultPrivateStateManager) (_psm : PrivateStateMetadata)
    (_managedParties : List String) : Bool :=
  false

/-- core/default_psm.go DefaultPrivateStateManager.CheckAt: opens a
state at the root recorded for the given root hash and reports the
outcome; the updated manager is returned to make the frame explicit. -/
def DefaultPrivateStateManager.CheckAt
    (d : DefaultPrivateStateManager) (root : Hash) :
    Except MPSError Unit × DefaultPrivateStateManager :=
  let pr := rawdbGetPrivateStateRoot d.db root
  let sn := stateNew pr.2 pr.1
  (sn.1, { d with db := sn.2 })

/-- core/multiple_psm.go (excerpted as src/unnamed/part_002): the
Multiple strategy manager with its two registry maps, embedded as
association lists.  The privateStatesTrieCache field is folded into the
Database embedding. -/
structure MultiplePrivateStateManager where
  db : Database
  residentGroupByKey : List (String × PrivateStateMetadata)
  privacyGroupById : List (PrivateStateIdentifier × PrivateStateMetadata)
deriving DecidableEq, Repr

/-- MultiplePrivateStateManager.StateRepository: reads the trie root
recorded for the block hash and binds a repository provider to it. -/
def MultiplePrivateStateManager.StateRepository
    (m : MultiplePrivateStateManager) (blockHash : Hash) :
    Except MPSError MultiplePrivateStateRepository :=
  let privateStatesTrieRoot := rawdbGetPrivateStatesTrieRoot m.db blockHash
  NewMultiplePrivateStateRepository m.db privateStatesTrieRoot.1

/-- MultiplePrivateStateManager.ResolveForManagedParty: map lookup,
with the fmt.Errorf message of the source on a miss. -/
def MultiplePrivateStateManager.ResolveForManagedParty
    (m : MultiplePrivateStateManager) (managedParty : String) :
    Except String PrivateStateMetadata :=
  match m.residentGroupByKey.lookup managedParty with
  | none => Except.error
      ("unable to find private state metadata for managed party " ++ managedParty)
  | some psm => Except.ok psm

/-- MultiplePrivateStateManager.ResolveForUserContext: falls back to the
reserved default identifier when the context carries no PSI, then looks
the identifier up in the privacy group map. -/
def MultiplePrivateStateManager.ResolveForUserContext
    (m : MultiplePrivateStateManager)
    (ctx : Option PrivateStateIdentifier) :
    Except String PrivateStateMetadata :=
  let psi := match ctx with
    | some psi => psi
    | none => DefaultPrivateStateIdentifier
  match m.privacyGroupById.lookup psi with
  | none => Except.error
      ("unable to find private state for context psi " ++ psi)
  | some psm => Except.ok psm

/-- A for-range loop over a Go map visits every entry exactly once, but
in an unspecified order: any permutation of the map contents is an
admissible enumeration handed to the loop by the runtime. -/
def GoMapEnumeration {α β : Type} (entries enum : List (α × β)) : Prop :=
  enum.Perm entries

/-- MultiplePrivateStateManager.PSIs: appends the key of every entry the
runtime hands to the range loop over privacyGroupById, starting from an
empty slice.  The enumeration order is a parameter because Go map
iteration order is unspecified (GoMapEnumeration ties it to the map). -/
def MultiplePrivateStateManager.PSIs
    (_m : MultiplePrivateStateManager)
    (enum : List (PrivateStateIdentifier × PrivateStateMetadata)) :
    List PrivateStateIdentifier :=
  enum.foldl (fun psis e => psis ++ [e.1]) []

/-- MultiplePrivateStateManager.NotIncludeAny delegates to the metadata
record. -/
def MultiplePrivateStateManager.NotIncludeAny
    (_m : MultiplePrivateStateManager) (psm : PrivateStateMetadata)
    (managedParties : List String) : Bool :=
  psm.NotIncludeAny managedParties

/-- MultiplePrivateStateManager.CheckAt: opens a state at the trie root
recorded for the given root hash and reports the outcome; the updated
manager is returned to make the frame explicit. -/
def MultiplePrivateStateManager.CheckAt
    (m : MultiplePrivateStateManager) (root : Hash) :
    Except MPSError Unit × MultiplePrivateStateManager :=
  let pr := rawdbGetPrivateStatesTrieRoot m.db root
  let sn := stateNew pr.2 pr.1
  (sn.1, { m with db := sn.2 })

/-- src/unnamed/part_002 newMultiplePrivateStateManager: builds the
manager from the two pre-built maps; it performs no validation and never
fails (the error component of its Go return type is always nil). -/
def newMultiplePrivateStateManager (db : Database)
    (residentGroupByKey : List (String × PrivateStateMetadata))
    (privacyGroupById : List (PrivateStateIdentifier × PrivateStateMetadata)) :
    Except String MultiplePrivateStateManager :=
  Except.ok
    { db := db
      residentGroupByKey := residentGroupByKey
      privacyGroupById := privacyGroupById }

/-- Modelled from the spec: the managed-party map of the registry, one
entry per party of each Resident group descriptor. -/
def residentGroupByKeyOf (descriptors : List PrivateStateMetadata) :
    List (String × PrivateStateMetadata) :=
  descriptors.foldl
    (fun acc md =>
      if md.typ = PrivateStateType.Resident then
        acc ++ md.managedParties.map fun p => (p, md)
      else acc)
    []

/-- Modelled from the spec: the identifier map of the registry, one
entry per group descriptor. -/
def privacyGroupByIdOf (descriptors : List PrivateStateMetadata) :
    List (PrivateStateIdentifier × PrivateStateMetadata) :=
  descriptors.map fun md => (md.ID, md)

/-- Modelled from the spec: construction of the Multiple strategy
manager from the group descriptors.  The descriptor validation stage is
not in the excerpt (newMultiplePrivateStateManager only receives the
pre-built maps); per the spec, construction fails with the fatal
InvalidRegistry error if two descriptors share an identifier or a
Resident descriptor has empty membership, and otherwise builds the maps
and hands them to newMultiplePrivateStateManager. -/
def newPrivateStateManagerFromDescriptors (db : Database)
    (descriptors : List PrivateStateMetadata) :
    Except MPSError MultiplePrivateStateManager :=
  if (descriptors.map PrivateStateMetadata.ID).Nodup ∧
      ∀ md ∈ descriptors,
        ¬(md.typ = PrivateStateType.Resident ∧ md.managedParties = []) then
    match newMultiplePrivateStateManager db (residentGroupByKeyOf descriptors)
        (privacyGroupByIdOf descriptors) with
    | Except.ok m => Except.ok m
    | Except.error _ => Except.error MPSError.InvalidRegistry
  else
    Except.error MPSError.InvalidRegistry

/-- consensus/istanbul (excerpted as src/unnamed/part_000):
ProposerPolicyId is uint64; round-trip behaviour does not involve
overflow, so it is embedded as Nat. -/
abbrev ProposerPolicyId := Nat

/-- The RoundRobin policy identifier (iota value 0). -/
def RoundRobin : ProposerPolicyId := 0

/-- The Sticky policy identifier (iota value 1). -/
def Sticky : ProposerPolicyId := 1

/-- ValidatorSortByFunc is a comparator function over validators whose
definition is not in the excerpt; only which comparator is installed is
observable here, so it is embedded as a tag. -/
inductive ValidatorSortByFunc where
  | byString
  | byByte
deriving DecidableEq, Repr

/-- ValidatorSortByString returns the default string comparator. -/
def ValidatorSortByString : ValidatorSortByFunc :=
  ValidatorSortByFunc.byString

/-- ProposerPolicy of src/unnamed/part_000.  The registry holds opaque
validator set handles (embedded as Nat); the registryMU mutex guards
concurrent access in Go and has no sequential content. -/
structure ProposerPolicy where
  Id : ProposerPolicyId
  By : ValidatorSortByFunc
  registry : List Nat
deriving DecidableEq, Repr

/-- NewProposerPolicyByIdAndSortFunc of src/unnamed/part_000. -/
def NewProposerPolicyByIdAndSortFunc (id : ProposerPolicyId)
    (by1 : ValidatorSortByFunc) : ProposerPolicy :=
  { Id := id, By := by1, registry := [] }

/-- NewProposerPolicy of src/unnamed/part_000. -/
def NewProposerPolicy (id : ProposerPolicyId) : ProposerPolicy :=
  NewProposerPolicyByIdAndSortFunc id ValidatorSortByString

/-- A TOML value as far as the marshalled proposer policy document needs:
an integer or a string. -/
inductive TomlValue where
  | intVal (n : Nat)
  | strVal (s : String)
deriving DecidableEq, Repr

/-- A TOML document: a flat table of key/value pairs. -/
def TomlDoc := List (String × TomlValue)

/-- The naoina/toml field matching normalization: keys and field names
are compared after lowercasing and dropping underscores. -/
def tomlNormName (s : String) : String :=
  String.mk ((s.toList.filter fun c => c ≠ '_').map Char.toLower)

/-- proposerPolicyToml of src/unnamed/part_000: the serialization
surrogate struct holding only the Id field. -/
structure proposerPolicyToml where
  Id : ProposerPolicyId
deriving DecidableEq, Repr

/-- toml.Marshal of the surrogate struct: emits the single Id field
under its snake-cased key. -/
def tomlMarshalProposerPolicyToml (pp : proposerPolicyToml) :
    Except String TomlDoc :=
  Except.ok [("id", TomlValue.intVal pp.Id)]

/-- toml.Unmarshal into the surrogate struct: finds the entry whose key
matches the field name Id under the naoina normalization; a missing key
leaves the field at its zero value, a non-integer value is a type
error. -/
def tomlUnmarshalProposerPolicyToml (doc : TomlDoc) :
    Except String proposerPolicyToml :=
  match doc.find? fun e => tomlNormName e.1 == tomlNormName "Id" with
  | some (_, TomlValue.intVal n) => Except.ok { Id := n }
  | some (_, _) => Except.error "toml: type mismatch for field Id"
  | none => Except.ok { Id := 0 }

/-- ProposerPolicy.MarshalTOML of src/unnamed/part_000: copies only the
Id field into the surrogate struct and marshals it. -/
def ProposerPolicy.MarshalTOML (p : ProposerPolicy) :
    Except String TomlDoc :=
  tomlMarshalProposerPolicyToml { Id := p.Id }

/-- ProposerPolicy.UnmarshalTOML of src/unnamed/part_000: unmarshals the
surrogate struct, then overwrites Id with the parsed value and resets By
to ValidatorSortByString; the registry is left untouched. -/
def ProposerPolicy.UnmarshalTOML (p : ProposerPolicy) (input : TomlDoc) :
    Except String ProposerPolicy :=
  match tomlUnmarshalProposerPolicyToml input with
  | Except.error e => Except.error e
  | Except.ok pp =>
      Except.ok { p with Id := pp.Id, By := ValidatorSortByString }

/-- Concrete fixtures used by the witnesses and counterexamples. -/
def sampleDatabase : Database :=
  { privateStateRoot := [], privateStatesTrieRoot := [], availableRoots := [] }

/-- A Resident group named a with one managed party. -/
def mdA : PrivateStateMetadata :=
  { ID := "a", typ := PrivateStateType.Resident, managedParties := ["pa"] }

/-- A Resident group named b with one managed party. -/
def mdB : PrivateStateMetadata :=
  { ID := "b", typ := PrivateStateType.Resident, managedParties := ["pb"] }

/-- A Resident group registered under the reserved default identifier. -/
def mdPrivate : PrivateStateMetadata :=
  { ID := DefaultPrivateStateIdentifier
    typ := PrivateStateType.Resident
    managedParties := ["pp"] }

/-- A Default strategy manager over the sample database. -/
def sampleDefault : DefaultPrivateStateManager :=
  { db := sampleDatabase }

/-- A Multiple strategy manager whose registry holds the default group
and the groups a and b, in that registration order. -/
def sampleMultiple : MultiplePrivateStateManager :=
  { db := sampleDatabase
    residentGroupByKey := [("pp", mdPrivate), ("pa", mdA), ("pb", mdB)]
    privacyGroupById :=
      [(DefaultPrivateStateIdentifier, mdPrivate), ("a", mdA), ("b", mdB)] }

/-- The registry map of sampleMultiple in registration order. -/
def registryAB : List (PrivateStateIdentifier × PrivateStateMetadata) :=
  [(DefaultPrivateStateIdentifier, mdPrivate), ("a", mdA), ("b", mdB)]

/-- An admissible Go map enumeration of registryAB that is not the
registration order. -/
def enumRev : List (PrivateStateIdentifier × PrivateStateMetadata) :=
  [("b", mdB), ("a", mdA), (DefaultPrivateStateIdentifier, mdPrivate)]

/-- Claim C9: for every party key and every user context, the Default
strategy resolvers never return an error: both always succeed with a
metadata record. -/
theorem claim_C9_default_resolvers_never_fail :
    (∀ (d : DefaultPrivateStateManager) (key : String), ∃ md,
        d.ResolveForManagedParty key = Except.ok md) ∧
    (∀ (d : DefaultPrivateStateManager) (ctx : Option PrivateStateIdentifier),
        ∃ md, d.ResolveForUserContext ctx = Except.ok md) := by
  constructor
  · intro d key
    exact ⟨DefaultPrivateStateMetadata, rfl⟩
  · intro d ctx
    cases ctx <;> exact ⟨_, rfl⟩

/-- Claim C1 counterexample: when the context carries the PSI other, the
Default strategy ResolveForUserContext returns a metadata record whose
identifier is other, which is not the single synthetic default record,
refuting that it returns the same record regardless of the PSI the
context carries. -/
theorem claim_C1_counterexample :
    sampleDefault.ResolveForUserContext (some "other") =
      Except.ok { ID := "other", typ := PrivateStateType.Resident,
                  managedParties := [] } ∧
    ({ ID := "other", typ := PrivateStateType.Resident,
       managedParties := [] } : PrivateStateMetadata) ≠
      DefaultPrivateStateMetadata := by
  exact ⟨rfl, by decide⟩

/-- Claim C1 (amended): ResolveForManagedParty returns the single
synthetic default record regardless of the key; ResolveForUserContext
always succeeds with a synthetic Resident record whose identifier is the
PSI carried by the context (the reserved default when none), so it
coincides with the default record exactly when the context carries no
PSI or carries the reserved default identifier. -/
theorem claim_C1_amended :
    (∀ (d : DefaultPrivateStateManager) (key : String),
        d.ResolveForManagedParty key = Except.ok DefaultPrivateStateMetadata) ∧
    (∀ (d : DefaultPrivateStateManager) (ctx : Option PrivateStateIdentifier),
        ∃ md, d.ResolveForUserContext ctx = Except.ok md ∧
          md.ID = ctx.getD DefaultPrivateStateIdentifier ∧
          md.typ = PrivateStateType.Resident ∧
          (md = DefaultPrivateStateMetadata ↔
            ctx.getD DefaultPrivateStateIdentifier = DefaultPrivateStateIdentifier)) := by
  constructor
  · intro d key
    rfl
  · intro d ctx
    cases ctx with
    | none =>
        refine ⟨DefaultPrivateStateMetadata, rfl, rfl, rfl, ?_⟩
        simp
    | some psi =>
        refine ⟨{ ID := psi, typ := PrivateStateType.Resident,
                  managedParties := [] }, rfl, rfl, rfl, ?_⟩
        simp [DefaultPrivateStateMetadata, PrivateStateMetadata.mk.injEq]

/-- Claim C4: for every block hash with no entry in the Block-Anchored
Root Index, StateRepository returns the UnknownBlock error, under both
the Default and the Multiple strategies. -/
theorem claim_C4_unknown_block :
    (∀ (d : DefaultPrivateStateManager) (h : Hash),
        d.db.privateStateRoot.lookup h = none →
        d.StateRepository h = Except.error MPSError.UnknownBlock) ∧
    (∀ (m : MultiplePrivateStateManager) (h : Hash),
        m.db.privateStatesTrieRoot.lookup h = none →
        m.StateRepository h = Except.error MPSError.UnknownBlock) := by
  constructor
  · intro d h hnone
    simp [DefaultPrivateStateManager.StateRepository,
      NewDefaultPrivateStateRepository, hnone]
  · intro m h hnone
    simp [MultiplePrivateStateManager.StateRepository,
      NewMultiplePrivateStateRepository, rawdbGetPrivateStatesTrieRoot, hnone]

/-- Claim C4 witness: the sample managers have empty root indexes, so
the block hash 5 has no entry and both strategies report UnknownBlock. -/
theorem claim_C4_witness :
    sampleDefault.StateRepository 5 = Except.error MPSError.UnknownBlock ∧
    sampleMultiple.StateRepository 5 = Except.error MPSError.UnknownBlock :=
  ⟨claim_C4_unknown_block.1 sampleDefault 5 rfl,
   claim_C4_unknown_block.2 sampleMultiple 5 rfl⟩

/-- Claim C5: the Multiple strategy ResolveForUserContext returns the
registry metadata recorded for the reserved default identifier when the
context carries no PSI, and returns the unknown-psi error when the
context carries a PSI absent from the registry (never a silent
default). -/
theorem claim_C5_user_context_fallback :
    (∀ (m : MultiplePrivateStateManager) (md : PrivateStateMetadata),
        m.privacyGroupById.lookup DefaultPrivateStateIdentifier = some md →
        m.ResolveForUserContext none = Except.ok md) ∧
    (∀ (m : MultiplePrivateStateManager) (p : PrivateStateIdentifier),
        m.privacyGroupById.lookup p = none →
        m.ResolveForUserContext (some p) =
          Except.error ("unable to find private state for context psi " ++ p)) := by
  constructor
  · intro m md hfound
    simp [MultiplePrivateStateManager.ResolveForUserContext, hfound]
  · intro m p hnone
    simp [MultiplePrivateStateManager.ResolveForUserContext, hnone]

/-- Claim C5 witness: on the sample registry, a context with no PSI
resolves to the group registered under the reserved default identifier,
and a context carrying the unregistered PSI zz is an error. -/
theorem claim_C5_witness :
    sampleMultiple.ResolveForUserContext none = Except.ok mdPrivate ∧
    sampleMultiple.ResolveForUserContext (some "zz") =
      Except.error ("unable to find private state for context psi " ++ "zz") :=
  ⟨claim_C5_user_context_fallback.1 sampleMultiple mdPrivate (by decide),
   claim_C5_user_context_fallback.2 sampleMultiple "zz" (by decide)⟩

/-- Claim C7: the Multiple strategy ResolveForManagedParty returns the
metadata the registry maps the configured party key to, and a hard
not-found error (never a silent default) for every key absent from the
registry. -/
theorem claim_C7_managed_party_lookup :
    (∀ (m : MultiplePrivateStateManager) (p : String)
        (md : PrivateStateMetadata),
        m.residentGroupByKey.lookup p = some md →
        m.ResolveForManagedParty p = Except.ok md) ∧
    (∀ (m : MultiplePrivateStateManager) (p : String),
        m.residentGroupByKey.lookup p = none →
        m.ResolveForManagedParty p =
          Except.error
            ("unable to find private state metadata for managed party " ++ p)) := by
  constructor
  · intro m p md hfound
    simp [MultiplePrivateStateManager.ResolveForManagedParty, hfound]
  · intro m p hnone
    simp [MultiplePrivateStateManager.ResolveForManagedParty, hnone]

/-- Claim C7 witness: on the sample registry, the configured party pa
resolves to the group a, and the unconfigured key zz is a hard error. -/
theorem claim_C7_witness :
    sampleMultiple.ResolveForManagedParty "pa" = Except.ok mdA ∧
    sampleMultiple.ResolveForManagedParty "zz" =
      Except.error
        ("unable to find private state metadata for managed party " ++ "zz") :=
  ⟨claim_C7_managed_party_lookup.1 sampleMultiple "pa" mdA (by decide),
   claim_C7_managed_party_lookup.2 sampleMultiple "zz" (by decide)⟩

/-- Appending each key of a list of entries to an accumulator yields the
accumulator followed by the keys in order. -/
theorem foldl_append_keys {α β : Type} (l : List (α × β)) (acc : List α) :
    l.foldl (fun psis e => psis ++ [e.1]) acc = acc ++ l.map Prod.fst := by
  induction l generalizing acc with
  | nil => simp
  | cons x xs ih => simp [ih]

/-- Claim C2 counterexample: enumRev is an admissible Go map enumeration
of the registry of sampleMultiple, yet PSIs applied to it does not list
the identifiers in registration order, refuting that enumeration follows
insertion order and is deterministic. -/
theorem claim_C2_counterexample :
    GoMapEnumeration sampleMultiple.privacyGroupById enumRev ∧
    sampleMultiple.PSIs enumRev ≠
      sampleMultiple.privacyGroupById.map Prod.fst := by
  constructor
  · show List.Perm enumRev sampleMultiple.privacyGroupById
    decide
  · decide

/-- Claim C2 (amended): for every admissible Go map enumeration, the
Multiple strategy PSIs returns every known identifier exactly once, but
in the unspecified map iteration order rather than registration order;
the Default strategy PSIs returns exactly the single reserved default
identifier. -/
theorem claim_C2_amended :
    (∀ (m : MultiplePrivateStateManager)
        (enum : List (PrivateStateIdentifier × PrivateStateMetadata)),
        GoMapEnumeration m.privacyGroupById enum →
        (m.PSIs enum).Perm (m.privacyGroupById.map Prod.fst)) ∧
    (∀ (d : DefaultPrivateStateManager),
        d.PSIs = [DefaultPrivateStateIdentifier]) := by
  constructor
  · intro m enum henum
    have hkeys : m.PSIs enum = enum.map Prod.fst := by
      simpa using foldl_append_keys enum []
    rw [hkeys]
    exact henum.map Prod.fst
  · intro d
    rfl

/-- Claim C2 witness: the reverse enumeration of the sample registry is
admissible, and the identifiers it yields are a permutation of the
registered identifiers. -/
theorem claim_C2_witness :
    (sampleMultiple.PSIs enumRev).Perm
      (sampleMultiple.privacyGroupById.map Prod.fst) :=
  claim_C2_amended.1 sampleMultiple enumRev
    (by show List.Perm enumRev sampleMultiple.privacyGroupById; decide)

/-- Claim C6: membership exclusion: for a single party, the Multiple
strategy NotIncludeAny is false exactly when the party is a member of
the managedParties of the record; the Default strategy NotIncludeAny is
always false; and for any party list the Multiple strategy NotIncludeAny
is true exactly when none of the supplied parties is a member. -/
theorem claim_C6_not_include_any :
    (∀ (m : MultiplePrivateStateManager) (md : PrivateStateMetadata)
        (p : String),
        (m.NotIncludeAny md [p] = false ↔ p ∈ md.managedParties)) ∧
    (∀ (d : DefaultPrivateStateManager) (md : PrivateStateMetadata)
        (ps : List String), d.NotIncludeAny md ps = false) ∧
    (∀ (m : MultiplePrivateStateManager) (md : PrivateStateMetadata)
        (ps : List String),
        (m.NotIncludeAny md ps = true ↔ ∀ p ∈ ps, p ∉ md.managedParties)) := by
  refine ⟨?_, ?_, ?_⟩
  · intro m md p
    simp [MultiplePrivateStateManager.NotIncludeAny,
      PrivateStateMetadata.NotIncludeAny]
  · intro d md ps
    rfl
  · intro m md ps
    simp [MultiplePrivateStateManager.NotIncludeAny,
      PrivateStateMetadata.NotIncludeAny]

/-- Claim C8: CheckAt only attempts to open a trie: under both
strategies it leaves the manager (its database, both root indexes and
the reachable trie roots) unchanged, and its result is either Ok or the
MissingState error. -/
theorem claim_C8_check_at_frame :
    (∀ (d : DefaultPrivateStateManager) (root : Hash),
        (d.CheckAt root).2 = d ∧
        ((d.CheckAt root).1 = Except.ok () ∨
          (d.CheckAt root).1 = Except.error MPSError.MissingState)) ∧
    (∀ (m : MultiplePrivateStateManager) (root : Hash),
        (m.CheckAt root).2 = m ∧
        ((m.CheckAt root).1 = Except.ok () ∨
          (m.CheckAt root).1 = Except.error MPSError.MissingState)) := by
  constructor
  · intro d root
    refine ⟨rfl, ?_⟩
    unfold DefaultPrivateStateManager.CheckAt stateNew rawdbGetPrivateStateRoot
    dsimp only
    split
    · exact Or.inl rfl
    · exact Or.inr rfl
  · intro m root
    refine ⟨rfl, ?_⟩
    unfold MultiplePrivateStateManager.CheckAt stateNew
      rawdbGetPrivateStatesTrieRoot
    dsimp only
    split
    · exact Or.inl rfl
    · exact Or.inr rfl

/-- Claim C3: construction of the Multiple strategy manager from the
group descriptors fails with the fatal InvalidRegistry error exactly
when two descriptors share an identifier or a Resident descriptor has
empty membership, and succeeds exactly on validated input. -/
theorem claim_C3_registry_validation :
    ∀ (db : Database) (descriptors : List PrivateStateMetadata),
      (newPrivateStateManagerFromDescriptors db descriptors =
          Except.error MPSError.InvalidRegistry ↔
        ¬(descriptors.map PrivateStateMetadata.ID).Nodup ∨
          ∃ md ∈ descriptors,
            md.typ = PrivateStateType.Resident ∧ md.managedParties = []) ∧
      ((∃ m, newPrivateStateManagerFromDescriptors db descriptors =
          Except.ok m) ↔
        (descriptors.map PrivateStateMetadata.ID).Nodup ∧
          ∀ md ∈ descriptors,
            ¬(md.typ = PrivateStateType.Resident ∧ md.managedParties = [])) := by
  intro db ds
  unfold newPrivateStateManagerFromDescriptors newMultiplePrivateStateManager
  split_ifs with h
  · dsimp only
    constructor
    · constructor
      · intro hcontra
        exact absurd hcontra (by simp)
      · intro hbad
        rcases hbad with hnd | ⟨md, hmem, hres⟩
        · exact absurd h.1 hnd
        · exact absurd hres (h.2 md hmem)
    · constructor
      · intro _
        exact h
      · intro _
        exact ⟨_, rfl⟩
  · constructor
    · constructor
      · intro _
        by_cases hA : (ds.map PrivateStateMetadata.ID).Nodup
        · right
          have hB : ¬∀ md ∈ ds,
              ¬(md.typ = PrivateStateType.Resident ∧ md.managedParties = []) :=
            fun hB => h ⟨hA, hB⟩
          push_neg at hB
          rcases hB with ⟨md, hmem, hres⟩
          exact ⟨md, hmem, hres⟩
        · exact Or.inl hA
      · intro _
        rfl
    · constructor
      · intro hex
        rcases hex with ⟨m, hm⟩
        exact absurd hm (by simp)
      · intro hok
        exact absurd hok h

/-- Claim C10: TOML round trip of the proposer policy: marshalling any
policy and unmarshalling the produced document into any target policy
succeeds, the target receives the Id of the marshalled policy, its By
comparator is reset to the default string sort, and its registry is
untouched (only Id survives the round trip). -/
theorem claim_C10_proposer_policy_toml_roundtrip :
    ∀ (p q : ProposerPolicy), ∃ (doc : TomlDoc) (q2 : ProposerPolicy),
      p.MarshalTOML = Except.ok doc ∧
      q.UnmarshalTOML doc = Except.ok q2 ∧
      q2.Id = p.Id ∧ q2.By = ValidatorSortByString ∧
      q2.registry = q.registry := by
  intro p q
  refine ⟨[("id", TomlValue.intVal p.Id)],
    { q with Id := p.Id, By := ValidatorSortByString }, rfl, ?_, rfl, rfl, rfl⟩
  show ProposerPolicy.UnmarshalTOML q [("id", TomlValue.intVal p.Id)] = _
  have hfind : List.find? (fun e => tomlNormName e.1 == tomlNormName "Id")
      [("id", TomlValue.intVal p.Id)] = some ("id", TomlValue.intVal p.Id) :=
    List.find?_cons_of_pos _ (by show (tomlNormName "id" == tomlNormName "Id") = true; decide)
  unfold ProposerPolicy.UnmarshalTOML tomlUnmarshalProposerPolicyToml
  rw [hfind]
